import Mathlib

/-!
Verification of the SiteSentinel scoring/aggregation core
(`src/utils/validators.util.js`, second document: `calculateCategoryScore`,
`calculateOverallScore`, `getScoreLabel`, `getScoreColor`) and the
malware override applied by the `POST /api/analyze` route handler
(`src/routes/analyze.route.js`).

JS numbers are modelled as `ℚ` (all values occurring in the scoring core are
exact decimals), `Math.round` as `jround` (round half towards +∞, which is the
JS semantics), JS `null`/`undefined` fields as `Option`, and array inputs that
may contain `null`/non-object entries as lists of `CatEntry`.
-/

namespace SiteSentinel

/-- JS `Math.round`: round half towards +∞, i.e. `⌊x + 1/2⌋` (stated via the
executable `Rat.floor`). -/
def jround (q : ℚ) : ℤ := Rat.floor (q + 1/2)

/-- `jround` is `⌊· + 1/2⌋`. -/
theorem jround_eq (q : ℚ) : jround q = ⌊q + 1/2⌋ := by
  rw [jround, Rat.floor_def', ← Rat.floor_def]

/-- A single check verdict `{name, status, severity, description}`.
`severity` may be absent (`undefined` in JS). -/
structure CheckRecord where
  name : String
  status : String
  severity : Option String
  description : String
  deriving DecidableEq, Repr

/-- The severity-weight object literal
`{'critical': 3, 'high': 2, 'medium': 1, 'low': 0.5}` used in
`calculateCategoryScore`; lookup of any other key yields `undefined`. -/
def severityWeightTable (s : String) : Option ℚ :=
  if s = "critical" then some 3
  else if s = "high" then some 2
  else if s = "medium" then some 1
  else if s = "low" then some (1/2)
  else none

/-- `{...}[check.severity] || 1`: table lookup with default 1 for a missing or
unrecognized severity (all table values are truthy, so `|| 1` only fires on
`undefined`). -/
def severityWeight (severity : Option String) : ℚ :=
  ((severity.bind severityWeightTable).getD 1)

/-- The per-check value: `pass → 100`, `warn → 60`, `info → 75`, anything else
(including `fail`) contributes 0. -/
def checkScore (status : String) : ℚ :=
  if status = "pass" then 100
  else if status = "warn" then 60
  else if status = "info" then 75
  else 0

/-- The filter predicate of `calculateCategoryScore`:
`check.status !== 'error' && check.status !== 'unavailable'`. -/
def scorable (c : CheckRecord) : Bool :=
  decide (c.status ≠ "error" ∧ c.status ≠ "unavailable")

/-- One step of the `forEach` accumulation in `calculateCategoryScore`:
`totalScore += checkScore * severityWeight; totalWeight += severityWeight`. -/
def categoryAccum (acc : ℚ × ℚ) (check : CheckRecord) : ℚ × ℚ :=
  (acc.1 + checkScore check.status * severityWeight check.severity,
   acc.2 + severityWeight check.severity)

/-- `calculateCategoryScore(checks)`: `null` on an empty list, otherwise filter
to the scorable subset, `null` if that is empty, otherwise the severity-weighted
mean rounded with `Math.round` (with the defensive `totalWeight === 0` guard of
the source kept). -/
def calculateCategoryScore (checks : List CheckRecord) : Option ℤ :=
  if checks.isEmpty then none
  else
    let scorableChecks := checks.filter scorable
    if scorableChecks.isEmpty then none
    else
      let acc := scorableChecks.foldl categoryAccum (0, 0)
      if acc.2 = 0 then none
      else some (jround (acc.1 / acc.2))

/-- A category result object as consumed by `calculateOverallScore`.
`category`, `status`, `score`, `checks` may each be absent/null (`Option`);
`malwareDetected` is `true` exactly when the JS property is present and
strictly equal to `true`. -/
structure CategoryResult where
  category : Option String
  status : Option String
  score : Option ℚ
  checks : Option (List CheckRecord)
  malwareDetected : Bool
  deriving DecidableEq, Repr

/-- An entry of the input array of `calculateOverallScore`: either a proper
object or a `null`/non-object entry (skipped by the loop). -/
inductive CatEntry where
  | invalid : CatEntry
  | valid : CategoryResult → CatEntry
  deriving DecidableEq, Repr

/-- An `{name, reason}` element of `excludedCategories`. -/
structure ExcludedEntry where
  name : String
  reason : String
  deriving DecidableEq, Repr

/-- An `{name, score, weight, contribution}` element of `categoryScores`. -/
structure CategoryScoreEntry where
  name : String
  score : ℚ
  weight : ℚ
  contribution : ℤ
  deriving DecidableEq, Repr

/-- The `breakdown` record; `formula` is absent on the degenerate-input path. -/
structure Breakdown where
  includedCategories : ℕ
  totalCategories : ℕ
  excludedCategories : List ExcludedEntry
  categoryScores : List CategoryScoreEntry
  formula : Option String
  deriving DecidableEq, Repr

/-- The `{score, breakdown}` result of `calculateOverallScore`. -/
structure OverallResult where
  score : ℤ
  breakdown : Breakdown
  deriving DecidableEq, Repr

/-- The `categoryWeights` object literal of `calculateOverallScore`. -/
def categoryWeightsTable (name : String) : Option ℚ :=
  if name = "Security & HTTPS" then some 3
  else if name = "Safety & Threats" then some 3
  else if name = "DNS & Domain" then some 2
  else if name = "Performance" then some (3/2)
  else if name = "SEO & Metadata" then some 1
  else if name = "Accessibility (WCAG 2.1)" then some (3/2)
  else if name = "Link Analysis" then some 2
  else if name = "External Links" then some (3/2)
  else if name = "WHOIS & Domain Info" then some 1
  else none

/-- JS `x || dflt` on an optional string: both a missing value and the falsy
empty string fall back to the default. -/
def jsOr (s : Option String) (dflt : String) : String :=
  match s with
  | some v => if v = "" then dflt else v
  | none => dflt

/-- The defensive recheck of `calculateOverallScore`:
`cat.checks` is an array and every element has status `error`/`unavailable`
(`validChecks.length === 0`). -/
def allChecksInvalid (cat : CategoryResult) : Bool :=
  match cat.checks with
  | some cs => (cs.filter scorable).isEmpty
  | none => false

/-- The mutable loop state of `calculateOverallScore`:
`excludedCategories`, `categoryScores`, `weightedSum`, `totalWeight`. -/
structure AggState where
  excludedCategories : List ExcludedEntry
  categoryScores : List CategoryScoreEntry
  weightedSum : ℚ
  totalWeight : ℚ
  deriving Repr

/-- One iteration of the `categories.forEach` loop of `calculateOverallScore`:
skip non-objects; exclude unavailable/score-less categories; exclude categories
whose checks all errored; otherwise accumulate `weightedSum`/`totalWeight` and
push a `categoryScores` entry whose `contribution` uses the running
`totalWeight || 1`. -/
def processCategory (st : AggState) (e : CatEntry) : AggState :=
  match e with
  | .invalid => st
  | .valid cat =>
    let categoryName := jsOr cat.category "Unknown"
    if cat.status = some "unavailable" ∨ cat.score = none then
      { st with excludedCategories := st.excludedCategories ++
          [⟨categoryName,
            if cat.status = some "unavailable" then "Analysis unavailable"
            else "No valid checks executed"⟩] }
    else if allChecksInvalid cat then
      { st with excludedCategories := st.excludedCategories ++
          [⟨categoryName, "All checks failed or unavailable"⟩] }
    else
      let weight := (categoryWeightsTable categoryName).getD 1
      let score := cat.score.getD 0
      let weightedSum := st.weightedSum + score * weight
      let totalWeight := st.totalWeight + weight
      { excludedCategories := st.excludedCategories
        categoryScores := st.categoryScores ++
          [⟨categoryName, score, weight,
            jround (score * weight / (if totalWeight = 0 then 1 else totalWeight))⟩]
        weightedSum := weightedSum
        totalWeight := totalWeight }

/-- `calculateOverallScore(categories)`: `none` models a non-array argument,
`some l` an array; the degenerate branch returns the fixed empty result,
otherwise the loop runs and the final score is
`totalWeight > 0 ? Math.round(weightedSum / totalWeight) : 0`. -/
def calculateOverallScore (categories : Option (List CatEntry)) : OverallResult :=
  match categories with
  | none => ⟨0, ⟨0, 0, [], [], none⟩⟩
  | some cats =>
    if cats.isEmpty then ⟨0, ⟨0, 0, [], [], none⟩⟩
    else
      let st := cats.foldl processCategory ⟨[], [], 0, 0⟩
      let finalScore := if 0 < st.totalWeight then jround (st.weightedSum / st.totalWeight) else 0
      ⟨finalScore,
       ⟨st.categoryScores.length, cats.length, st.excludedCategories,
        st.categoryScores, some "Weighted average based on category importance"⟩⟩

/-- `getScoreLabel(score)`; the argument may be `null`/`undefined`. -/
def getScoreLabel (score : Option ℚ) : String :=
  match score with
  | none => "Not Analyzed"
  | some s =>
    if s ≥ 90 then "Excellent"
    else if s ≥ 75 then "Good"
    else if s ≥ 60 then "Fair"
    else if s ≥ 45 then "Poor"
    else "Critical"

/-- `getScoreColor(score)`; same bucket boundaries as `getScoreLabel`. -/
def getScoreColor (score : Option ℚ) : String :=
  match score with
  | none => "#6b7280"
  | some s =>
    if s ≥ 90 then "#10b981"
    else if s ≥ 75 then "#3b82f6"
    else if s ≥ 60 then "#f59e0b"
    else if s ≥ 45 then "#ef4444"
    else "#dc2626"

/-- The value the route handler stores in `overall.score`: either the raw
number `0` written by the malware override, or the untouched result object of
`calculateOverallScore`. -/
inductive RouteScore where
  | num : ℤ → RouteScore
  | result : OverallResult → RouteScore
  deriving DecidableEq, Repr

/-- The overall-score computation of the `POST /api/analyze` handler after
category filtering: `let overallScore = calculateOverallScore(validCategories)`
followed by
`if (validCategories.some(cat => cat && cat.malwareDetected === true)) overallScore = 0`. -/
def routeOverallScore (validCategories : List CategoryResult) : RouteScore :=
  let overallScore := calculateOverallScore (some (validCategories.map CatEntry.valid))
  let malwareDetected := validCategories.any (fun cat => cat.malwareDetected)
  if malwareDetected then RouteScore.num 0 else RouteScore.result overallScore

/-! ### Specification-side helper functions (closed forms used in theorem
statements; each mirrors a condition or value of the source loop). -/

/-- A category is excluded from the weighted average: unavailable status,
missing score, or all checks errored. -/
def categoryExcluded (cat : CategoryResult) : Bool :=
  if cat.status = some "unavailable" ∨ cat.score = none then true
  else allChecksInvalid cat

/-- The reason string recorded for an excluded category. -/
def exclusionReason (cat : CategoryResult) : String :=
  if cat.status = some "unavailable" then "Analysis unavailable"
  else if cat.score = none then "No valid checks executed"
  else "All checks failed or unavailable"

/-- The importance weight an included category receives:
`categoryWeights[categoryName] || 1`. -/
def includedWeight (cat : CategoryResult) : ℚ :=
  (categoryWeightsTable (jsOr cat.category "Unknown")).getD 1

/-- The numeric score an included category contributes
(`typeof cat.score === 'number' ? cat.score : 0`). -/
def includedScore (cat : CategoryResult) : ℚ :=
  cat.score.getD 0

/-- Select the category results that enter the weighted average. -/
def includedEntryQ : CatEntry → Option CategoryResult
  | .invalid => none
  | .valid cat => if categoryExcluded cat then none else some cat

/-- Select the `{name, reason}` record an entry adds to `excludedCategories`. -/
def excludedEntryQ : CatEntry → Option ExcludedEntry
  | .invalid => none
  | .valid cat =>
    if categoryExcluded cat then some ⟨jsOr cat.category "Unknown", exclusionReason cat⟩
    else none

/-- Whether an input array entry is a proper object. -/
def entryValid : CatEntry → Bool
  | .invalid => false
  | .valid _ => true

/-- Projection of a `categoryScores` entry to its order-independent fields. -/
def csProj (e : CategoryScoreEntry) : String × ℚ × ℚ :=
  (e.name, e.score, e.weight)

/-- A minimal available category object, used in concrete instances. -/
def mkSimpleCategory (name : String) (score : ℚ) : CategoryResult :=
  ⟨some name, some "available", some score, none, false⟩

/-! ### Arithmetic lemmas about `jround` and the weight/value tables -/

/-- Evaluate `jround` from the two floor inequalities. -/
theorem jround_eval {q : ℚ} {n : ℤ} (h1 : (n : ℚ) ≤ q + 1/2) (h2 : q + 1/2 < n + 1) :
    jround q = n := by
  rw [jround_eq]
  exact Int.floor_eq_iff.mpr ⟨h1, h2⟩

theorem jround_nonneg {q : ℚ} (h : 0 ≤ q) : 0 ≤ jround q := by
  rw [jround_eq]
  exact Int.le_floor.mpr (by push_cast; linarith)

theorem jround_le_hundred {q : ℚ} (h : q ≤ 100) : jround q ≤ 100 := by
  rw [jround_eq]
  have h101 : ⌊q + 1/2⌋ < (101 : ℤ) := Int.floor_lt.mpr (by push_cast; linarith)
  omega

theorem severityWeight_pos (s : Option String) : 0 < severityWeight s := by
  cases s with
  | none => norm_num [severityWeight]
  | some str =>
    simp only [severityWeight, Option.some_bind, severityWeightTable]
    split_ifs <;> norm_num

theorem checkScore_nonneg (s : String) : 0 ≤ checkScore s := by
  unfold checkScore; split_ifs <;> norm_num

theorem checkScore_le_hundred (s : String) : checkScore s ≤ 100 := by
  unfold checkScore; split_ifs <;> norm_num

/-- The `forEach` accumulation of `calculateCategoryScore` computes the pair of
sums `(Σ value·weight, Σ weight)` on top of any initial accumulator. -/
theorem categoryAccum_spec (l : List CheckRecord) (a b : ℚ) :
    l.foldl categoryAccum (a, b) =
      (a + (l.map fun c => checkScore c.status * severityWeight c.severity).sum,
       b + (l.map fun c => severityWeight c.severity).sum) := by
  induction l generalizing a b with
  | nil => simp
  | cons c t ih =>
    simp only [List.foldl_cons, List.map_cons, List.sum_cons, categoryAccum, ih, Prod.mk.injEq]
    constructor <;> ring

/-- The scorable-subset weight sum is positive once one scorable check exists. -/
theorem scorableWeight_pos (checks : List CheckRecord)
    (h : checks.filter scorable ≠ []) :
    0 < ((checks.filter scorable).map fun c => severityWeight c.severity).sum := by
  refine List.sum_pos _ (fun x hx => ?_) (by simpa using h)
  obtain ⟨c, _, rfl⟩ := List.mem_map.mp hx
  exact severityWeight_pos _

/-- Shared closed form: with one scorable check present, `calculateCategoryScore`
returns the rounded severity-weighted mean over the scorable subset. -/
theorem calculateCategoryScore_eq_some (checks : List CheckRecord)
    (h : ∃ c ∈ checks, c.status ≠ "error" ∧ c.status ≠ "unavailable") :
    calculateCategoryScore checks =
      some (jround
        (((checks.filter scorable).map
            (fun c => checkScore c.status * severityWeight c.severity)).sum /
         ((checks.filter scorable).map (fun c => severityWeight c.severity)).sum)) := by
  obtain ⟨c, hc, hs⟩ := h
  have hscor : scorable c = true := by simp [scorable, hs.1, hs.2]
  have hmem : c ∈ checks.filter scorable := List.mem_filter.mpr ⟨hc, hscor⟩
  have hfne : checks.filter scorable ≠ [] := List.ne_nil_of_mem hmem
  have hne : checks ≠ [] := List.ne_nil_of_mem hc
  have hwpos := scorableWeight_pos checks hfne
  unfold calculateCategoryScore
  rw [if_neg (by simpa using hne), if_neg (by simpa using hfne), categoryAccum_spec]
  simp only [zero_add]
  rw [if_neg (ne_of_gt hwpos)]

/-- C1: on any list with at least one record whose status is neither `error`
nor `unavailable`, `scoreCategory` returns the rounded weighted mean
`round(Σ value·weight / Σ weight)` over exactly the non-error, non-unavailable
records, with value 100/75/60/0 for pass/info/warn/anything-else and weight
3/2/1/0.5 for critical/high/medium/low, defaulting to 1. -/
theorem calculateCategoryScore_weighted_mean (checks : List CheckRecord)
    (h : ∃ c ∈ checks, c.status ≠ "error" ∧ c.status ≠ "unavailable") :
    calculateCategoryScore checks =
      some (jround
        (((checks.filter scorable).map
            (fun c => checkScore c.status * severityWeight c.severity)).sum /
         ((checks.filter scorable).map (fun c => severityWeight c.severity)).sum)) ∧
    (∀ c : CheckRecord, scorable c = true ↔ (c.status ≠ "error" ∧ c.status ≠ "unavailable")) ∧
    checkScore "pass" = 100 ∧ checkScore "info" = 75 ∧ checkScore "warn" = 60 ∧
    checkScore "fail" = 0 ∧
    (∀ s : String, s ≠ "pass" → s ≠ "info" → s ≠ "warn" → checkScore s = 0) ∧
    severityWeight (some "critical") = 3 ∧ severityWeight (some "high") = 2 ∧
    severityWeight (some "medium") = 1 ∧ severityWeight (some "low") = 1/2 ∧
    severityWeight none = 1 ∧
    (∀ s : String, s ≠ "critical" → s ≠ "high" → s ≠ "medium" → s ≠ "low" →
      severityWeight (some s) = 1) := by
  refine ⟨calculateCategoryScore_eq_some checks h, ?_, by simp [checkScore],
    by simp [checkScore], by simp [checkScore], by simp [checkScore], ?_,
    by simp [severityWeight, severityWeightTable],
    by simp [severityWeight, severityWeightTable],
    by simp [severityWeight, severityWeightTable],
    by simp [severityWeight, severityWeightTable],
    by simp [severityWeight], ?_⟩
  · intro c; simp [scorable]
  · intro s h1 h2 h3; simp [checkScore, h1, h2, h3]
  · intro s h1 h2 h3 h4; simp [severityWeight, severityWeightTable, h1, h2, h3, h4]

/-- Witness for C1: the round-trip scenario
`[{A, pass, critical}, {B, warn, medium}]` scores `round(360/4) = 90`. -/
theorem calculateCategoryScore_weighted_mean_witness :
    calculateCategoryScore
      [⟨"A", "pass", some "critical", ""⟩, ⟨"B", "warn", some "medium", ""⟩] = some 90 := by
  have h := (calculateCategoryScore_weighted_mean
    [⟨"A", "pass", some "critical", ""⟩, ⟨"B", "warn", some "medium", ""⟩]
    ⟨⟨"A", "pass", some "critical", ""⟩, by simp, by simp, by simp⟩).1
  rw [h]
  simp [scorable, checkScore, severityWeight, severityWeightTable, List.filter]
  rw [jround_eval (n := 90)] <;> norm_num

/-- C4: `scoreCategory` returns `null` exactly when the list is empty or every
record has status `error` or `unavailable`. -/
theorem calculateCategoryScore_null_iff (checks : List CheckRecord) :
    calculateCategoryScore checks = none ↔
      (checks = [] ∨ ∀ c ∈ checks, c.status = "error" ∨ c.status = "unavailable") := by
  constructor
  · intro h
    by_contra hcon
    push_neg at hcon
    obtain ⟨_, c, hc, hs⟩ := hcon
    rw [calculateCategoryScore_eq_some checks ⟨c, hc, hs⟩] at h
    exact Option.noConfusion h
  · rintro (rfl | hall)
    · rfl
    · have hfilter : checks.filter scorable = [] := by
        rw [List.filter_eq_nil_iff]
        intro c hc
        have := hall c hc
        simp [scorable]
        tauto
      unfold calculateCategoryScore
      rcases eq_or_ne checks [] with rfl | hne
      · rfl
      · rw [if_neg (by simpa using hne), hfilter]
        rfl

/-- Witness for C4: the empty list and an all-errored list both yield `null`. -/
theorem calculateCategoryScore_null_iff_witness :
    calculateCategoryScore [] = none ∧
    calculateCategoryScore [⟨"A", "error", some "high", ""⟩] = none :=
  ⟨(calculateCategoryScore_null_iff []).mpr (Or.inl rfl),
   (calculateCategoryScore_null_iff [⟨"A", "error", some "high", ""⟩]).mpr
     (Or.inr (by intro c hc; simp at hc; subst hc; simp))⟩

/-- C5: on a non-array or empty-array input, `scoreOverall` returns the fixed
`{score: 0, breakdown: {includedCategories: 0, totalCategories: 0,
excludedCategories: [], categoryScores: []}}` object. -/
theorem calculateOverallScore_degenerate (inp : Option (List CatEntry))
    (h : inp = none ∨ inp = some []) :
    calculateOverallScore inp = ⟨0, ⟨0, 0, [], [], none⟩⟩ := by
  rcases h with rfl | rfl <;> rfl

/-- Witness for C5: the empty list input. -/
theorem calculateOverallScore_degenerate_witness :
    calculateOverallScore (some []) = ⟨0, ⟨0, 0, [], [], none⟩⟩ :=
  calculateOverallScore_degenerate (some []) (Or.inr rfl)

/-- C7: `scoreToLabel` buckets: `Excellent` iff `score ≥ 90`, `Good` iff
`75 ≤ score < 90`, `Fair` iff `60 ≤ score < 75`, `Poor` iff `45 ≤ score < 60`,
`Critical` iff `score < 45`, and `Not Analyzed` on `null`/`undefined`. -/
theorem getScoreLabel_boundaries (q : ℚ) :
    (getScoreLabel (some q) = "Excellent" ↔ 90 ≤ q) ∧
    (getScoreLabel (some q) = "Good" ↔ 75 ≤ q ∧ q < 90) ∧
    (getScoreLabel (some q) = "Fair" ↔ 60 ≤ q ∧ q < 75) ∧
    (getScoreLabel (some q) = "Poor" ↔ 45 ≤ q ∧ q < 60) ∧
    (getScoreLabel (some q) = "Critical" ↔ q < 45) ∧
    getScoreLabel none = "Not Analyzed" := by
  have e : getScoreLabel (some q) =
      (if q ≥ 90 then "Excellent"
       else if q ≥ 75 then "Good"
       else if q ≥ 60 then "Fair"
       else if q ≥ 45 then "Poor"
       else "Critical") := rfl
  rw [e]
  split_ifs with h1 h2 h3 h4 <;>
    refine ⟨?_, ?_, ?_, ?_, ?_, rfl⟩ <;>
      simp only [String.reduceEq, iff_true, iff_false, false_iff, true_iff, not_and, not_lt] <;>
        first
          | linarith
          | (constructor <;> linarith)
          | (intro h5; linarith)

/-! ### Characterization of the `calculateOverallScore` loop -/

theorem categoryExcluded_iff (cat : CategoryResult) :
    categoryExcluded cat = true ↔
      (cat.status = some "unavailable" ∨ cat.score = none ∨ allChecksInvalid cat = true) := by
  unfold categoryExcluded
  split_ifs with h
  · rcases h with h | h <;> simp [h]
  · push_neg at h
    simp [h.1, h.2]

theorem processCategory_valid_excluded (st : AggState) (cat : CategoryResult)
    (h : categoryExcluded cat = true) :
    processCategory st (.valid cat) =
      { st with excludedCategories :=
          st.excludedCategories ++ [⟨jsOr cat.category "Unknown", exclusionReason cat⟩] } := by
  simp only [processCategory]
  by_cases hA : cat.status = some "unavailable"
  · rw [if_pos (Or.inl hA), if_pos hA]
    unfold exclusionReason
    rw [if_pos hA]
  · by_cases hB : cat.score = none
    · rw [if_pos (Or.inr hB), if_neg hA]
      unfold exclusionReason
      rw [if_neg hA, if_pos hB]
    · have hC : allChecksInvalid cat = true := by
        rcases (categoryExcluded_iff cat).mp h with ha | hb | hc
        · exact absurd ha hA
        · exact absurd hb hB
        · exact hc
      rw [if_neg (by push_neg; exact ⟨hA, hB⟩), if_pos hC]
      unfold exclusionReason
      rw [if_neg hA, if_neg hB]

theorem processCategory_valid_included (st : AggState) (cat : CategoryResult)
    (h : categoryExcluded cat = false) :
    processCategory st (.valid cat) =
      ⟨st.excludedCategories,
       st.categoryScores ++
         [⟨jsOr cat.category "Unknown", includedScore cat, includedWeight cat,
           jround (includedScore cat * includedWeight cat /
             (if st.totalWeight + includedWeight cat = 0 then 1
              else st.totalWeight + includedWeight cat))⟩],
       st.weightedSum + includedScore cat * includedWeight cat,
       st.totalWeight + includedWeight cat⟩ := by
  have hne : ¬ categoryExcluded cat = true := by simp [h]
  rw [categoryExcluded_iff] at hne
  push_neg at hne
  have hor : ¬(cat.status = some "unavailable" ∨ cat.score = none) := by
    push_neg
    exact ⟨hne.1, hne.2.1⟩
  have hinv : ¬ allChecksInvalid cat = true := hne.2.2
  simp only [processCategory]
  rw [if_neg hor, if_neg hinv]
  rfl

theorem overallFold_totalWeight (l : List CatEntry) (st : AggState) :
    (l.foldl processCategory st).totalWeight =
      st.totalWeight + ((l.filterMap includedEntryQ).map includedWeight).sum := by
  induction l generalizing st with
  | nil => simp
  | cons e t ih =>
    cases e with
    | invalid =>
      have he : processCategory st .invalid = st := rfl
      simp [List.foldl_cons, he, includedEntryQ, ih]
    | valid cat =>
      by_cases h : categoryExcluded cat = true
      · simp [List.foldl_cons, processCategory_valid_excluded st cat h, includedEntryQ, h, ih]
      · have h' : categoryExcluded cat = false := by revert h; cases categoryExcluded cat <;> simp
        simp [List.foldl_cons, processCategory_valid_included st cat h', includedEntryQ, h', ih,
          add_assoc]

theorem overallFold_weightedSum (l : List CatEntry) (st : AggState) :
    (l.foldl processCategory st).weightedSum =
      st.weightedSum +
        ((l.filterMap includedEntryQ).map fun c => includedScore c * includedWeight c).sum := by
  induction l generalizing st with
  | nil => simp
  | cons e t ih =>
    cases e with
    | invalid =>
      have he : processCategory st .invalid = st := rfl
      simp [List.foldl_cons, he, includedEntryQ, ih]
    | valid cat =>
      by_cases h : categoryExcluded cat = true
      · simp [List.foldl_cons, processCategory_valid_excluded st cat h, includedEntryQ, h, ih]
      · have h' : categoryExcluded cat = false := by revert h; cases categoryExcluded cat <;> simp
        simp [List.foldl_cons, processCategory_valid_included st cat h', includedEntryQ, h', ih,
          add_assoc]

theorem overallFold_excluded (l : List CatEntry) (st : AggState) :
    (l.foldl processCategory st).excludedCategories =
      st.excludedCategories ++ l.filterMap excludedEntryQ := by
  induction l generalizing st with
  | nil => simp
  | cons e t ih =>
    cases e with
    | invalid =>
      have he : processCategory st .invalid = st := rfl
      simp [List.foldl_cons, he, excludedEntryQ, ih]
    | valid cat =>
      by_cases h : categoryExcluded cat = true
      · simp [List.foldl_cons, processCategory_valid_excluded st cat h, excludedEntryQ, h, ih]
      · have h' : categoryExcluded cat = false := by revert h; cases categoryExcluded cat <;> simp
        simp [List.foldl_cons, processCategory_valid_included st cat h', excludedEntryQ, h', ih]

theorem overallFold_scores_proj (l : List CatEntry) (st : AggState) :
    (l.foldl processCategory st).categoryScores.map csProj =
      st.categoryScores.map csProj ++
        ((l.filterMap includedEntryQ).map fun c =>
          (jsOr c.category "Unknown", includedScore c, includedWeight c)) := by
  induction l generalizing st with
  | nil => simp
  | cons e t ih =>
    cases e with
    | invalid =>
      have he : processCategory st .invalid = st := rfl
      simp [List.foldl_cons, he, includedEntryQ, ih]
    | valid cat =>
      by_cases h : categoryExcluded cat = true
      · simp [List.foldl_cons, processCategory_valid_excluded st cat h, includedEntryQ, h, ih]
      · have h' : categoryExcluded cat = false := by revert h; cases categoryExcluded cat <;> simp
        simp [List.foldl_cons, processCategory_valid_included st cat h', includedEntryQ, h', ih,
          csProj]

theorem overallFold_scores_length (l : List CatEntry) (st : AggState) :
    (l.foldl processCategory st).categoryScores.length =
      st.categoryScores.length + (l.filterMap includedEntryQ).length := by
  have h := congrArg List.length (overallFold_scores_proj l st)
  simpa using h

theorem overallFold_filter_valid (l : List CatEntry) (st : AggState) :
    (l.filter entryValid).foldl processCategory st = l.foldl processCategory st := by
  induction l generalizing st with
  | nil => rfl
  | cons e t ih =>
    cases e with
    | invalid =>
      have he : processCategory st .invalid = st := rfl
      simp [entryValid, List.filter_cons, he, ih]
    | valid cat =>
      simp [entryValid, List.filter_cons, ih]

/-- Closed form of the final score on a non-empty entry list. -/
theorem calculateOverallScore_score_closed (l : List CatEntry) (hne : l ≠ []) :
    (calculateOverallScore (some l)).score =
      (if 0 < ((l.filterMap includedEntryQ).map includedWeight).sum
       then jround
         (((l.filterMap includedEntryQ).map fun c => includedScore c * includedWeight c).sum /
          ((l.filterMap includedEntryQ).map includedWeight).sum)
       else 0) := by
  have h2 : l.isEmpty = false := by simp [List.isEmpty_iff, hne]
  simp only [calculateOverallScore, h2, Bool.false_eq_true, if_false]
  rw [overallFold_totalWeight, overallFold_weightedSum]
  simp

theorem filterMap_included_map_valid (l : List CategoryResult) :
    (l.map CatEntry.valid).filterMap includedEntryQ =
      l.filter (fun c => !categoryExcluded c) := by
  induction l with
  | nil => rfl
  | cons c t ih =>
    by_cases h : categoryExcluded c = true <;>
      simp [includedEntryQ, h, ih, List.filter_cons]

theorem filterMap_excluded_map_valid (l : List CategoryResult) :
    (l.map CatEntry.valid).filterMap excludedEntryQ =
      (l.filter categoryExcluded).map
        (fun c => (⟨jsOr c.category "Unknown", exclusionReason c⟩ : ExcludedEntry)) := by
  induction l with
  | nil => rfl
  | cons c t ih =>
    by_cases h : categoryExcluded c = true <;>
      simp [excludedEntryQ, h, ih, List.filter_cons]

/-- C3: over a non-empty list of well-formed category results, `scoreOverall`
records every category with unavailable status, null score, or all checks
errored in `excludedCategories` with its reason; excluded categories produce no
`categoryScores` entry and contribute nothing to the sums; the score is
`round(weightedSum / totalWeight)` over the non-excluded categories when
`totalWeight > 0`, else 0. -/
theorem calculateOverallScore_exclusion_spec (l : List CategoryResult) (h : l ≠ []) :
    (calculateOverallScore (some (l.map CatEntry.valid))).breakdown.excludedCategories =
      (l.filter categoryExcluded).map
        (fun c => (⟨jsOr c.category "Unknown", exclusionReason c⟩ : ExcludedEntry)) ∧
    (calculateOverallScore (some (l.map CatEntry.valid))).breakdown.categoryScores.map csProj =
      (l.filter (fun c => !categoryExcluded c)).map
        (fun c => (jsOr c.category "Unknown", includedScore c, includedWeight c)) ∧
    (calculateOverallScore (some (l.map CatEntry.valid))).breakdown.includedCategories =
      (l.filter (fun c => !categoryExcluded c)).length ∧
    (calculateOverallScore (some (l.map CatEntry.valid))).score =
      (if 0 < ((l.filter (fun c => !categoryExcluded c)).map includedWeight).sum
       then jround
         (((l.filter (fun c => !categoryExcluded c)).map
             (fun c => includedScore c * includedWeight c)).sum /
          ((l.filter (fun c => !categoryExcluded c)).map includedWeight).sum)
       else 0) := by
  have hne : (l.map CatEntry.valid).isEmpty = false := by
    simp [List.isEmpty_iff, h]
  simp only [calculateOverallScore, hne, Bool.false_eq_true, if_false]
  refine ⟨?_, ?_, ?_, ?_⟩
  · rw [overallFold_excluded, filterMap_excluded_map_valid]
    simp
  · rw [overallFold_scores_proj, filterMap_included_map_valid]
    simp
  · rw [overallFold_scores_length, filterMap_included_map_valid]
    simp
  · rw [overallFold_totalWeight, overallFold_weightedSum, filterMap_included_map_valid]
    simp

/-- Witness for C3: one included category (SEO, score 80, weight 1), one
status-unavailable category and one category whose checks all errored; the
latter two are excluded with their reasons and the score is 80. -/
theorem calculateOverallScore_exclusion_spec_witness :
    (calculateOverallScore (some
      ([mkSimpleCategory "SEO & Metadata" 80,
        ⟨some "DNS & Domain", some "unavailable", none, none, false⟩,
        ⟨some "Performance", some "available", some 70,
          some [⟨"X", "error", none, ""⟩], false⟩].map CatEntry.valid))).breakdown.excludedCategories =
      [⟨"DNS & Domain", "Analysis unavailable"⟩,
       ⟨"Performance", "All checks failed or unavailable"⟩] ∧
    (calculateOverallScore (some
      ([mkSimpleCategory "SEO & Metadata" 80,
        ⟨some "DNS & Domain", some "unavailable", none, none, false⟩,
        ⟨some "Performance", some "available", some 70,
          some [⟨"X", "error", none, ""⟩], false⟩].map CatEntry.valid))).score = 80 := by
  have h := calculateOverallScore_exclusion_spec
    [mkSimpleCategory "SEO & Metadata" 80,
     ⟨some "DNS & Domain", some "unavailable", none, none, false⟩,
     ⟨some "Performance", some "available", some 70,
       some [⟨"X", "error", none, ""⟩], false⟩] (by simp)
  refine ⟨?_, ?_⟩
  · rw [h.1]
    simp [categoryExcluded, allChecksInvalid, exclusionReason, jsOr, mkSimpleCategory, scorable,
      List.filter]
  · rw [h.2.2.2]
    rw [if_pos]
    · have he : ([mkSimpleCategory "SEO & Metadata" 80,
          ⟨some "DNS & Domain", some "unavailable", none, none, false⟩,
          ⟨some "Performance", some "available", some 70,
            some [⟨"X", "error", none, ""⟩], false⟩].filter
            (fun c => !categoryExcluded c)) = [mkSimpleCategory "SEO & Metadata" 80] := by
        simp [categoryExcluded, allChecksInvalid, mkSimpleCategory, scorable, List.filter]
      rw [he]
      simp [includedScore, includedWeight, jsOr, mkSimpleCategory, categoryWeightsTable]
      rw [jround_eval (n := 80)] <;> norm_num
    · have he : ([mkSimpleCategory "SEO & Metadata" 80,
          ⟨some "DNS & Domain", some "unavailable", none, none, false⟩,
          ⟨some "Performance", some "available", some 70,
            some [⟨"X", "error", none, ""⟩], false⟩].filter
            (fun c => !categoryExcluded c)) = [mkSimpleCategory "SEO & Metadata" 80] := by
        simp [categoryExcluded, allChecksInvalid, mkSimpleCategory, scorable, List.filter]
      rw [he]
      simp [includedWeight, jsOr, mkSimpleCategory, categoryWeightsTable]

/-- C9: the final score of `scoreOverall` is invariant under any permutation of
the input list, because `weightedSum` and `totalWeight` are order-independent
sums. -/
theorem overallScore_perm_invariant (l l2 : List CatEntry) (h : l.Perm l2) :
    (calculateOverallScore (some l)).score = (calculateOverallScore (some l2)).score := by
  rcases eq_or_ne l [] with rfl | hne
  · have : l2 = [] := h.nil_eq.symm
    subst this
    rfl
  · have hne2 : l2 ≠ [] := by
      intro e
      exact hne ((e ▸ h).eq_nil)
    have h1 : l.isEmpty = false := by simp [List.isEmpty_iff, hne]
    have h2 : l2.isEmpty = false := by simp [List.isEmpty_iff, hne2]
    have hperm : (l.filterMap includedEntryQ).Perm (l2.filterMap includedEntryQ) :=
      h.filterMap includedEntryQ
    have hW : ((l.filterMap includedEntryQ).map includedWeight).sum =
        ((l2.filterMap includedEntryQ).map includedWeight).sum :=
      (hperm.map includedWeight).sum_eq
    have hS : ((l.filterMap includedEntryQ).map fun c => includedScore c * includedWeight c).sum =
        ((l2.filterMap includedEntryQ).map fun c => includedScore c * includedWeight c).sum :=
      (hperm.map fun c => includedScore c * includedWeight c).sum_eq
    simp only [calculateOverallScore, h1, h2, Bool.false_eq_true, if_false]
    rw [overallFold_totalWeight, overallFold_totalWeight, overallFold_weightedSum,
      overallFold_weightedSum, hW, hS]

/-- Witness for C9: swapping two concrete categories leaves the score equal. -/
theorem overallScore_perm_invariant_witness :
    (calculateOverallScore (some
      [CatEntry.valid (mkSimpleCategory "Security & HTTPS" 90),
       CatEntry.valid (mkSimpleCategory "SEO & Metadata" 40)])).score =
    (calculateOverallScore (some
      [CatEntry.valid (mkSimpleCategory "SEO & Metadata" 40),
       CatEntry.valid (mkSimpleCategory "Security & HTTPS" 90)])).score :=
  overallScore_perm_invariant _ _
    (List.Perm.swap (CatEntry.valid (mkSimpleCategory "SEO & Metadata" 40))
      (CatEntry.valid (mkSimpleCategory "Security & HTTPS" 90)) [])

/-! ### Lemmas on skipped malformed entries -/

theorem included_excluded_partition (l : List CatEntry) :
    (l.filterMap includedEntryQ).length + (l.filterMap excludedEntryQ).length =
      (l.filter entryValid).length := by
  induction l with
  | nil => rfl
  | cons e t ih =>
    cases e with
    | invalid => simpa [includedEntryQ, excludedEntryQ, entryValid, List.filter_cons] using ih
    | valid cat =>
      by_cases h : categoryExcluded cat = true <;>
        simp [includedEntryQ, excludedEntryQ, entryValid, List.filter_cons, h] <;>
          omega

theorem filter_valid_length_lt_iff (l : List CatEntry) :
    (l.filter entryValid).length < l.length ↔ CatEntry.invalid ∈ l := by
  induction l with
  | nil => simp
  | cons e t ih =>
    cases e with
    | invalid =>
      have hdrop : List.filter entryValid (CatEntry.invalid :: t) = List.filter entryValid t := by
        simp [List.filter_cons, entryValid]
      rw [hdrop]
      simp only [List.length_cons, List.mem_cons]
      have hle := List.length_filter_le entryValid t
      constructor
      · intro _; left; trivial
      · intro _; omega
    | valid cat =>
      have hkeep : List.filter entryValid (CatEntry.valid cat :: t) =
          CatEntry.valid cat :: List.filter entryValid t := by
        simp [List.filter_cons, entryValid]
      rw [hkeep]
      simp only [List.length_cons, List.mem_cons]
      rw [Nat.add_lt_add_iff_right, ih]
      constructor
      · exact Or.inr
      · rintro (hcon | hmem)
        · exact absurd hcon (by simp)
        · exact hmem

theorem calculateOverallScore_filter_valid (l : List CatEntry) :
    (calculateOverallScore (some l)).breakdown.excludedCategories =
      (calculateOverallScore (some (l.filter entryValid))).breakdown.excludedCategories ∧
    (calculateOverallScore (some l)).breakdown.categoryScores =
      (calculateOverallScore (some (l.filter entryValid))).breakdown.categoryScores := by
  rcases eq_or_ne l [] with rfl | hne
  · exact ⟨rfl, rfl⟩
  · have h2 : l.isEmpty = false := by simp [List.isEmpty_iff, hne]
    rcases eq_or_ne (l.filter entryValid) [] with hf | hf
    · have hall : ∀ e ∈ l, e = CatEntry.invalid := by
        intro e he
        have hv := List.filter_eq_nil_iff.mp hf e he
        cases e with
        | invalid => rfl
        | valid cat => exact absurd (by simp [entryValid]) hv
      have hfold : l.foldl processCategory ⟨[], [], 0, 0⟩ = ⟨[], [], 0, 0⟩ := by
        rw [← overallFold_filter_valid, hf]
        rfl
      rw [hf]
      simp only [calculateOverallScore, h2, Bool.false_eq_true, if_false, hfold]
      exact ⟨rfl, rfl⟩
    · have h1 : (l.filter entryValid).isEmpty = false := by simp [List.isEmpty_iff, hf]
      simp only [calculateOverallScore, h1, h2, Bool.false_eq_true, if_false]
      rw [overallFold_filter_valid]
      exact ⟨rfl, rfl⟩

/-- C10: `null`/non-object input entries are counted in `totalCategories` (the
raw input length) but appear in neither `categoryScores` nor
`excludedCategories` (dropping them changes neither list); hence
`includedCategories + |excludedCategories|` equals the number of well-formed
entries, is at most `totalCategories`, and is strictly below it exactly when a
malformed entry is present. -/
theorem overall_malformed_skipped (l : List CatEntry) :
    (calculateOverallScore (some l)).breakdown.totalCategories = l.length ∧
    (calculateOverallScore (some l)).breakdown.excludedCategories =
      (calculateOverallScore (some (l.filter entryValid))).breakdown.excludedCategories ∧
    (calculateOverallScore (some l)).breakdown.categoryScores =
      (calculateOverallScore (some (l.filter entryValid))).breakdown.categoryScores ∧
    (calculateOverallScore (some l)).breakdown.includedCategories +
        (calculateOverallScore (some l)).breakdown.excludedCategories.length =
      (l.filter entryValid).length ∧
    (calculateOverallScore (some l)).breakdown.includedCategories +
        (calculateOverallScore (some l)).breakdown.excludedCategories.length ≤
      (calculateOverallScore (some l)).breakdown.totalCategories ∧
    ((calculateOverallScore (some l)).breakdown.includedCategories +
        (calculateOverallScore (some l)).breakdown.excludedCategories.length <
        (calculateOverallScore (some l)).breakdown.totalCategories ↔
      CatEntry.invalid ∈ l) := by
  have hcount : (calculateOverallScore (some l)).breakdown.includedCategories +
      (calculateOverallScore (some l)).breakdown.excludedCategories.length =
      (l.filter entryValid).length := by
    rcases eq_or_ne l [] with rfl | hne
    · rfl
    · have h2 : l.isEmpty = false := by simp [List.isEmpty_iff, hne]
      simp only [calculateOverallScore, h2, Bool.false_eq_true, if_false]
      rw [overallFold_scores_length, overallFold_excluded]
      simpa using included_excluded_partition l
  have htotal : (calculateOverallScore (some l)).breakdown.totalCategories = l.length := by
    rcases eq_or_ne l [] with rfl | hne
    · rfl
    · have h2 : l.isEmpty = false := by simp [List.isEmpty_iff, hne]
      simp only [calculateOverallScore, h2, Bool.false_eq_true, if_false]
  refine ⟨htotal, (calculateOverallScore_filter_valid l).1,
    (calculateOverallScore_filter_valid l).2, hcount, ?_, ?_⟩
  · rw [hcount, htotal]
    exact List.length_filter_le entryValid l
  · rw [hcount, htotal]
    exact filter_valid_length_lt_iff l

/-! ### The route-level malware override -/

/-- The same category object with its `malwareDetected` flag cleared. -/
def clearMalware (cat : CategoryResult) : CategoryResult :=
  ⟨cat.category, cat.status, cat.score, cat.checks, false⟩

theorem processCategory_clearMalware (st : AggState) (cat : CategoryResult) :
    processCategory st (.valid (clearMalware cat)) = processCategory st (.valid cat) := by
  cases cat
  rfl

theorem foldl_clearMalware (l : List CategoryResult) (st : AggState) :
    (l.map fun d => CatEntry.valid (clearMalware d)).foldl processCategory st =
      (l.map CatEntry.valid).foldl processCategory st := by
  induction l generalizing st with
  | nil => rfl
  | cons c t ih =>
    simp only [List.map_cons, List.foldl_cons, processCategory_clearMalware, ih]

/-- C2: if any included category of the route's valid-category list reports
`malwareDetected === true`, the value the handler exposes as the overall score
is the raw number 0, while `calculateOverallScore` itself is oblivious to the
flag (clearing every `malwareDetected` leaves its result unchanged): the
override happens in the caller, after the weighted computation. -/
theorem malware_override_forces_zero (cats : List CategoryResult) (c : CategoryResult)
    (hc : c ∈ cats) (_hincl : categoryExcluded c = false) (hm : c.malwareDetected = true) :
    routeOverallScore cats = RouteScore.num 0 ∧
    calculateOverallScore (some (cats.map fun d => CatEntry.valid (clearMalware d))) =
      calculateOverallScore (some (cats.map CatEntry.valid)) := by
  constructor
  · have hany : cats.any (fun cat => cat.malwareDetected) = true :=
      List.any_eq_true.mpr ⟨c, hc, hm⟩
    simp only [routeOverallScore, hany, if_true]
  · have hne : cats ≠ [] := List.ne_nil_of_mem hc
    have h1 : (cats.map fun d => CatEntry.valid (clearMalware d)).isEmpty = false := by
      simp [List.isEmpty_iff, hne]
    have h2 : (cats.map CatEntry.valid).isEmpty = false := by
      simp [List.isEmpty_iff, hne]
    simp only [calculateOverallScore, h1, h2, Bool.false_eq_true, if_false]
    rw [foldl_clearMalware]
    simp [List.length_map]

/-- Witness for C2: two weight-3 categories scoring 85 with one malware flag:
the route exposes 0 even though the aggregator's weighted result is 85. -/
theorem malware_override_forces_zero_witness :
    routeOverallScore
      [mkSimpleCategory "Security & HTTPS" 85,
       ⟨some "Safety & Threats", some "available", some 85, none, true⟩] = RouteScore.num 0 ∧
    (calculateOverallScore (some
      ([mkSimpleCategory "Security & HTTPS" 85,
        ⟨some "Safety & Threats", some "available", some 85, none, true⟩].map
          CatEntry.valid))).score = 85 := by
  constructor
  · exact (malware_override_forces_zero
      [mkSimpleCategory "Security & HTTPS" 85,
       ⟨some "Safety & Threats", some "available", some 85, none, true⟩]
      ⟨some "Safety & Threats", some "available", some 85, none, true⟩
      (by simp) (by simp [categoryExcluded, allChecksInvalid]) rfl).1
  · have he : ([mkSimpleCategory "Security & HTTPS" 85,
        ⟨some "Safety & Threats", some "available", some 85, none, true⟩].map
          CatEntry.valid).filterMap includedEntryQ =
        [mkSimpleCategory "Security & HTTPS" 85,
         ⟨some "Safety & Threats", some "available", some 85, none, true⟩] := by
      simp [includedEntryQ, categoryExcluded, allChecksInvalid, mkSimpleCategory]
    rw [calculateOverallScore_score_closed _ (by simp), he]
    simp [includedScore, includedWeight, jsOr, mkSimpleCategory, categoryWeightsTable]
    rw [jround_eval (n := 85)] <;> norm_num

/-! ### Category importance weights and range postconditions -/

/-- Projected `categoryScores` closed form on a non-empty entry list. -/
theorem calculateOverallScore_scores_proj_closed (l : List CatEntry) (hne : l ≠ []) :
    (calculateOverallScore (some l)).breakdown.categoryScores.map csProj =
      (l.filterMap includedEntryQ).map
        (fun c => (jsOr c.category "Unknown", includedScore c, includedWeight c)) := by
  have h2 : l.isEmpty = false := by simp [List.isEmpty_iff, hne]
  simp only [calculateOverallScore, h2, Bool.false_eq_true, if_false]
  rw [overallFold_scores_proj]
  simp

/-- C6: an included category whose name is not in the importance-weight table is
weighted exactly 1 (its `categoryScores` entry carries weight 1 and the
singleton overall score is just its rounded score), while the known names
receive their fixed weights (3, 3, 2 and 1 for Security & HTTPS,
Safety & Threats, DNS & Domain and SEO & Metadata). -/
theorem unknown_category_weight_default (name : String) (q : ℚ)
    (hname : name ≠ "") (h : categoryWeightsTable name = none) :
    (calculateOverallScore (some
      [CatEntry.valid (mkSimpleCategory name q)])).breakdown.categoryScores.map csProj =
      [(name, q, 1)] ∧
    (calculateOverallScore (some [CatEntry.valid (mkSimpleCategory name q)])).score = jround q ∧
    (calculateOverallScore (some
      [CatEntry.valid (mkSimpleCategory "Security & HTTPS" q)])).breakdown.categoryScores.map
        csProj = [("Security & HTTPS", q, 3)] ∧
    (calculateOverallScore (some
      [CatEntry.valid (mkSimpleCategory "Safety & Threats" q)])).breakdown.categoryScores.map
        csProj = [("Safety & Threats", q, 3)] ∧
    (calculateOverallScore (some
      [CatEntry.valid (mkSimpleCategory "DNS & Domain" q)])).breakdown.categoryScores.map
        csProj = [("DNS & Domain", q, 2)] ∧
    (calculateOverallScore (some
      [CatEntry.valid (mkSimpleCategory "SEO & Metadata" q)])).breakdown.categoryScores.map
        csProj = [("SEO & Metadata", q, 1)] := by
  have hone : ∀ nm : String, ([CatEntry.valid (mkSimpleCategory nm q)]).filterMap
      includedEntryQ = [mkSimpleCategory nm q] := by
    intro nm
    simp [includedEntryQ, categoryExcluded, allChecksInvalid, mkSimpleCategory]
  refine ⟨?_, ?_, ?_, ?_, ?_, ?_⟩
  · rw [calculateOverallScore_scores_proj_closed _ (by simp), hone]
    simp [mkSimpleCategory, includedScore, includedWeight, jsOr, hname, h]
  · rw [calculateOverallScore_score_closed _ (by simp), hone]
    simp [mkSimpleCategory, includedScore, includedWeight, jsOr, hname, h]
  · rw [calculateOverallScore_scores_proj_closed _ (by simp), hone]
    simp [mkSimpleCategory, includedScore, includedWeight, jsOr, categoryWeightsTable]
  · rw [calculateOverallScore_scores_proj_closed _ (by simp), hone]
    simp [mkSimpleCategory, includedScore, includedWeight, jsOr, categoryWeightsTable]
  · rw [calculateOverallScore_scores_proj_closed _ (by simp), hone]
    simp [mkSimpleCategory, includedScore, includedWeight, jsOr, categoryWeightsTable]
  · rw [calculateOverallScore_scores_proj_closed _ (by simp), hone]
    simp [mkSimpleCategory, includedScore, includedWeight, jsOr, categoryWeightsTable]

/-- Witness for C6: the category named "Unrecognized Category" with score 80 is
weighted 1 and yields overall score 80. -/
theorem unknown_category_weight_default_witness :
    (calculateOverallScore (some
      [CatEntry.valid (mkSimpleCategory "Unrecognized Category" 80)])).breakdown.categoryScores.map
        csProj = [("Unrecognized Category", 80, 1)] ∧
    (calculateOverallScore (some
      [CatEntry.valid (mkSimpleCategory "Unrecognized Category" 80)])).score = 80 := by
  have h := unknown_category_weight_default "Unrecognized Category" 80
    (by simp) (by simp [categoryWeightsTable])
  refine ⟨h.1, h.2.1.trans ?_⟩
  rw [jround_eval (n := 80)] <;> norm_num

/-- Both sum bounds for a severity/importance-weighted value list. -/
theorem sum_weighted_bounds {α : Type} (L : List α) (v w : α → ℚ)
    (hv0 : ∀ a ∈ L, 0 ≤ v a) (hv1 : ∀ a ∈ L, v a ≤ 100) (hw : ∀ a ∈ L, 0 ≤ w a) :
    0 ≤ (L.map fun a => v a * w a).sum ∧
    (L.map fun a => v a * w a).sum ≤ 100 * (L.map w).sum := by
  constructor
  · apply List.sum_nonneg
    intro x hx
    obtain ⟨a, ha, rfl⟩ := List.mem_map.mp hx
    exact mul_nonneg (hv0 a ha) (hw a ha)
  · rw [← List.sum_map_mul_left]
    apply List.sum_le_sum
    intro a ha
    exact mul_le_mul_of_nonneg_right (hv1 a ha) (hw a ha)

theorem jround_div_bounds {S W : ℚ} (hS : 0 ≤ S) (hW : 0 < W) (hle : S ≤ 100 * W) :
    0 ≤ jround (S / W) ∧ jround (S / W) ≤ 100 :=
  ⟨jround_nonneg (div_nonneg hS hW.le),
   jround_le_hundred ((div_le_iff₀ hW).mpr (by linarith))⟩

theorem includedWeight_pos (c : CategoryResult) : 0 < includedWeight c := by
  unfold includedWeight categoryWeightsTable
  split_ifs <;> norm_num

theorem includedScore_bounds {l : List CategoryResult}
    (hb : ∀ c ∈ l, ∀ q : ℚ, c.score = some q → 0 ≤ q ∧ q ≤ 100) :
    ∀ c ∈ l.filter (fun c => !categoryExcluded c),
      0 ≤ includedScore c ∧ includedScore c ≤ 100 := by
  intro c hc
  obtain ⟨hcl, hx⟩ := List.mem_filter.mp hc
  cases hqs : c.score with
  | none =>
    exfalso
    have : categoryExcluded c = true := (categoryExcluded_iff c).mpr (Or.inr (Or.inl hqs))
    simp [this] at hx
  | some q =>
    have := hb c hcl q hqs
    simpa [includedScore, hqs] using this

/-- C8: `scoreCategory` returns `null` or an integer in `[0, 100]`; on a
non-empty list of category results whose non-null scores lie in `[0, 100]`,
the overall `score` is an integer in `[0, 100]`. -/
theorem scoring_range_postconditions :
    (∀ (checks : List CheckRecord) (n : ℤ), calculateCategoryScore checks = some n →
      0 ≤ n ∧ n ≤ 100) ∧
    (∀ l : List CategoryResult, l ≠ [] →
      (∀ c ∈ l, ∀ q : ℚ, c.score = some q → 0 ≤ q ∧ q ≤ 100) →
      0 ≤ (calculateOverallScore (some (l.map CatEntry.valid))).score ∧
      (calculateOverallScore (some (l.map CatEntry.valid))).score ≤ 100) := by
  constructor
  · intro checks n h
    by_cases hex : ∃ c ∈ checks, c.status ≠ "error" ∧ c.status ≠ "unavailable"
    · rw [calculateCategoryScore_eq_some checks hex] at h
      have hn := Option.some_inj.mp h
      subst hn
      obtain ⟨c, hc, hs⟩ := hex
      have hfne : checks.filter scorable ≠ [] :=
        List.ne_nil_of_mem (List.mem_filter.mpr ⟨hc, by simp [scorable, hs.1, hs.2]⟩)
      have hW := scorableWeight_pos checks hfne
      have hb := sum_weighted_bounds (checks.filter scorable)
        (fun c => checkScore c.status) (fun c => severityWeight c.severity)
        (fun a _ => checkScore_nonneg a.status)
        (fun a _ => checkScore_le_hundred a.status)
        (fun a _ => (severityWeight_pos a.severity).le)
      exact jround_div_bounds hb.1 hW hb.2
    · exfalso
      push_neg at hex
      have hfilter : checks.filter scorable = [] := by
        rw [List.filter_eq_nil_iff]
        intro c hc
        simp only [scorable, decide_eq_true_eq]
        intro hcon
        exact hcon.2 (hex c hc hcon.1)
      unfold calculateCategoryScore at h
      rcases eq_or_ne checks [] with rfl | hne
      · exact absurd h (by simp)
      · rw [if_neg (by simpa using hne), hfilter] at h
        exact absurd h (by simp)
  · intro l hne hb
    rw [calculateOverallScore_score_closed (l.map CatEntry.valid) (by simp [hne]),
      filterMap_included_map_valid]
    by_cases hw : 0 < ((l.filter (fun c => !categoryExcluded c)).map includedWeight).sum
    · rw [if_pos hw]
      have hbounds := sum_weighted_bounds (l.filter (fun c => !categoryExcluded c))
        includedScore includedWeight
        (fun c hc => (includedScore_bounds hb c hc).1)
        (fun c hc => (includedScore_bounds hb c hc).2)
        (fun c _ => (includedWeight_pos c).le)
      exact jround_div_bounds hbounds.1 hw hbounds.2
    · rw [if_neg hw]
      norm_num

/-- Witness for C8: a single Performance category at score 50 stays in range. -/
theorem scoring_range_postconditions_witness :
    0 ≤ (calculateOverallScore (some
      ([mkSimpleCategory "Performance" 50].map CatEntry.valid))).score ∧
    (calculateOverallScore (some
      ([mkSimpleCategory "Performance" 50].map CatEntry.valid))).score ≤ 100 := by
  apply scoring_range_postconditions.2 [mkSimpleCategory "Performance" 50] (by simp)
  intro c hc q hq
  simp only [List.mem_singleton] at hc
  subst hc
  simp only [mkSimpleCategory, Option.some.injEq] at hq
  subst hq
  norm_num

/-- Witness for C7: the 89/90 boundary. -/
theorem getScoreLabel_boundaries_witness :
    getScoreLabel (some (89 : ℚ)) = "Good" ∧ getScoreLabel (some (90 : ℚ)) = "Excellent" :=
  ⟨((getScoreLabel_boundaries 89).2.1).mpr (by norm_num),
   ((getScoreLabel_boundaries 90).1).mpr (by norm_num)⟩

/-- Witness for C10: one `null` entry next to one proper category gives
`totalCategories = 2` with a strict accounting gap. -/
theorem overall_malformed_skipped_witness :
    (calculateOverallScore (some [CatEntry.invalid,
      CatEntry.valid (mkSimpleCategory "Performance" 50)])).breakdown.totalCategories = 2 ∧
    (calculateOverallScore (some [CatEntry.invalid,
        CatEntry.valid (mkSimpleCategory "Performance" 50)])).breakdown.includedCategories +
      (calculateOverallScore (some [CatEntry.invalid,
        CatEntry.valid (mkSimpleCategory "Performance" 50)])).breakdown.excludedCategories.length <
      (calculateOverallScore (some [CatEntry.invalid,
        CatEntry.valid (mkSimpleCategory "Performance" 50)])).breakdown.totalCategories := by
  have h := overall_malformed_skipped
    [CatEntry.invalid, CatEntry.valid (mkSimpleCategory "Performance" 50)]
  exact ⟨h.1.trans (by simp), h.2.2.2.2.2.mpr (by simp)⟩

end SiteSentinel
